import Mathlib

set_option maxRecDepth 4000

namespace Spec2Proof

/-! Shallow embedding of the asynchronous task-coordination toolkit in
`src/utils/autoFix.ts` (Throttler, Delayer, Limiter, Queue, ResourceQueue,
RunOnceScheduler/Worker, createCancelablePromise).  Promises are modelled as
cells in an explicit heap together with a FIFO microtask queue; the
then-callbacks appearing in the source are defunctionalised into per-component
reaction types.  Timers are modelled by explicit timer identifiers: only the
currently armed timer can fire, mirroring `setTimeout`/`clearTimeout`. -/

/-- Model of a JavaScript `Error` value: only the `name` and `message` fields
matter for the cancellation protocol of `autoFix.ts`. -/
structure MError where
  name : String
  message : String
deriving DecidableEq

/-- The sentinel string `canceledName` (autoFix.ts line 142). -/
def canceledName : String := "Canceled"

/-- Embeds `canceled()` (autoFix.ts lines 146-150): a fresh Error whose `name`
is set equal to its `message`, both the sentinel string. -/
def canceled : MError := { name := canceledName, message := canceledName }

/-- Embeds `isPromiseCanceledError` (autoFix.ts lines 154-156): the error is an
Error whose name and message both equal the sentinel. -/
def isPromiseCanceledError (e : MError) : Bool :=
  e.name == canceledName && e.message == canceledName

/-- Outcome of a settled promise.  Fulfilment values are natural numbers, which
suffices for every scenario the claims describe (counter values, factory
results). -/
inductive Settled where
  | fulfilled (v : Nat)
  | rejected (e : MError)
deriving DecidableEq

/-- A heap of promise cells plus the event loop's FIFO microtask queue.  A cell
is either pending (`none`, with the reactions registered so far) or settled
(`some outcome`).  `R` is the component-specific defunctionalised reaction
type. -/
structure Heap (R : Type) where
  cells : List (Option Settled × List R)
  micro : List (R × Settled)
deriving DecidableEq

namespace Heap

variable {R : Type}

/-- Allocate a fresh pending promise, returning its identifier. -/
def newProm (h : Heap R) : Heap R × Nat :=
  ({ h with cells := h.cells ++ [(none, [])] }, h.cells.length)

/-- Read a cell; out-of-range identifiers read as settled-free pending cells. -/
def cell (h : Heap R) (p : Nat) : Option Settled × List R :=
  h.cells.getD p (none, [])

/-- State of promise `p`: `none` while pending, `some outcome` once settled. -/
def state (h : Heap R) (p : Nat) : Option Settled :=
  (h.cell p).1

/-- Overwrite cell `p`. -/
def setCell (h : Heap R) (p : Nat) (c : Option Settled × List R) : Heap R :=
  { h with cells := h.cells.set p c }

/-- Settle promise `p`.  A first settlement wins: settling an already settled
promise is a no-op, exactly as for JavaScript promises.  The registered
reactions are pushed onto the microtask queue in registration order. -/
def settle (h : Heap R) (p : Nat) (out : Settled) : Heap R :=
  match h.cell p with
  | (some _, _) => h
  | (none, rs) =>
    let h := h.setCell p (some out, [])
    { h with micro := h.micro ++ rs.map (fun r => (r, out)) }

/-- Register a then-callback on promise `p`.  On a pending promise it is
recorded in the cell; on a settled promise it is scheduled as a microtask at
once, as `then` does on a settled JavaScript promise. -/
def register (h : Heap R) (p : Nat) (r : R) : Heap R :=
  match h.cell p with
  | (some out, _) => { h with micro := h.micro ++ [(r, out)] }
  | (none, rs) => h.setCell p (none, rs ++ [r])

end Heap

/-! The Throttler (autoFix.ts lines 253-301).  Its fields `activePromise`,
`queuedPromise` and `queuedPromiseFactory` are carried over directly;
`queuedPromiseFactory` is a Bool because in the claimed scenario every call
supplies the same counter-incrementing factory.  That factory is modelled
operationally: invoking it increments `counter` and creates a fresh pending
task promise which will later be fulfilled with the counter value read at
invocation time (recorded in `taskVals`). -/

/-- Defunctionalised then-callbacks of the Throttler source. -/
inductive TReaction where
  /-- Callback registered on the active promise by the non-active branch of
  `queue` (lines 291-299): clears `activePromise` and settles the caller's
  returned promise with the active outcome. -/
  | activeFollower (ret : Nat)
  /-- The `onComplete` continuation (lines 270-277) together with the
  `.then(resolve)` adoption (line 280): clears `queuedPromise`, re-enters
  `queue` with the stored factory, clears the stored factory, and makes the
  queued promise adopt the result. -/
  | onComplete (qp : Nat)
  /-- Resolution forwarding used both for the per-caller followers of the
  queued promise (lines 284-286) and for promise adoption. -/
  | forward (tgt : Nat)
deriving DecidableEq

/-- State of a Throttler instance together with the promise heap and the
scenario's shared counter. -/
structure ThrottlerState where
  heap : Heap TReaction
  counter : Nat
  taskProms : List Nat
  taskVals : List Nat
  activePromise : Option Nat
  queuedPromise : Option Nat
  queuedPromiseFactory : Bool
deriving DecidableEq

/-- The freshly constructed Throttler (lines 259-263). -/
def Throttler.init : ThrottlerState :=
  { heap := { cells := [], micro := [] }
  , counter := 0
  , taskProms := []
  , taskVals := []
  , activePromise := none
  , queuedPromise := none
  , queuedPromiseFactory := false }

/-- Embeds `Throttler.queue` (lines 265-300) specialised to the
counter-incrementing factory of the claim: if a task is active, remember the
factory as the latest queued one, lazily create the collapsed queued promise
(registering `onComplete` on the active promise), and hand the caller a fresh
follower of the queued promise; otherwise invoke the factory (incrementing the
counter and allocating a pending task promise) and hand the caller a fresh
follower of the active promise. -/
def Throttler.queue (s : ThrottlerState) : ThrottlerState × Nat :=
  match s.activePromise with
  | some a =>
    let s := { s with queuedPromiseFactory := true }
    let sqp : ThrottlerState × Nat :=
      match s.queuedPromise with
      | some qp => (s, qp)
      | none =>
        let (h, qp) := s.heap.newProm
        let h := h.register a (TReaction.onComplete qp)
        ({ s with heap := h, queuedPromise := some qp }, qp)
    let s := sqp.1
    let qp := sqp.2
    let (h, ret) := s.heap.newProm
    let h := h.register qp (TReaction.forward ret)
    ({ s with heap := h }, ret)
  | none =>
    let counter := s.counter + 1
    let (h, t) := s.heap.newProm
    let s := { s with heap := h
                    , counter := counter
                    , taskProms := s.taskProms ++ [t]
                    , taskVals := s.taskVals ++ [counter]
                    , activePromise := some t }
    let (h, ret) := s.heap.newProm
    let h := h.register t (TReaction.activeFollower ret)
    ({ s with heap := h }, ret)

/-- Run one defunctionalised Throttler reaction with the outcome it was
scheduled with. -/
def Throttler.runReaction (r : TReaction) (out : Settled) (s : ThrottlerState) :
    ThrottlerState :=
  match r with
  | TReaction.activeFollower ret =>
    { s with activePromise := none, heap := s.heap.settle ret out }
  | TReaction.forward tgt =>
    { s with heap := s.heap.settle tgt out }
  | TReaction.onComplete qp =>
    let s := { s with queuedPromise := none }
    let sr := Throttler.queue s
    let s := { sr.1 with queuedPromiseFactory := false }
    { s with heap := s.heap.register sr.2 (TReaction.forward qp) }

/-- Drain the microtask queue, running at most `fuel` microtasks in FIFO
order. -/
def ThrottlerState.drain : Nat → ThrottlerState → ThrottlerState
  | 0, s => s
  | fuel + 1, s =>
    match s.heap.micro with
    | [] => s
    | (r, out) :: rest =>
      ThrottlerState.drain fuel
        (Throttler.runReaction r out { s with heap := { s.heap with micro := rest } })

/-- External event: the task promise created by invocation `i` settles with the
counter value that invocation produced, after which the event loop drains. -/
def Throttler.completeTask (i : Nat) (s : ThrottlerState) : ThrottlerState :=
  let h := s.heap.settle (s.taskProms.getD i 0) (Settled.fulfilled (s.taskVals.getD i 0))
  ThrottlerState.drain 100 { s with heap := h }

/-! createCancelablePromise (autoFix.ts lines 166-198).  The body's promise is
the `inner` cell; the wrapper promise handed to the caller is the `outer` cell.
The token listener registered on line 171 rejects `outer` with `canceled()`;
the `Promise.resolve(thenable).then` continuation of lines 174-180 disposes the
token source and settles `outer` with the inner outcome. -/

/-- Defunctionalised then-callback of createCancelablePromise: the continuation
registered on the inner promise, which disposes the token source and delivers
the inner outcome to the outer promise. -/
inductive CReaction where
  | settleOuter
deriving DecidableEq

/-- State of one createCancelablePromise instance. -/
structure CancState where
  heap : Heap CReaction
  inner : Nat
  outer : Nat
  cancellationRequested : Bool
  sourceDisposed : Bool
deriving DecidableEq

/-- Embeds the construction in `createCancelablePromise`: the body is invoked
producing the pending inner promise, the outer promise is created, and the
delivery continuation is registered on the inner promise. -/
def Canc.create : CancState :=
  let h : Heap CReaction := { cells := [], micro := [] }
  let (h, inner) := h.newProm
  let (h, outer) := h.newProm
  let h := h.register inner CReaction.settleOuter
  { heap := h, inner := inner, outer := outer
  , cancellationRequested := false, sourceDisposed := false }

/-- Run the delivery continuation (lines 174-180): `source.dispose()` then
resolve or reject the outer promise with the inner outcome. -/
def Canc.runReaction (r : CReaction) (out : Settled) (s : CancState) : CancState :=
  match r with
  | CReaction.settleOuter =>
    { s with sourceDisposed := true, heap := s.heap.settle s.outer out }

/-- Embeds `cancel()` (lines 185-187) together with the token-source semantics:
the first call marks the token canceled and, unless the source was already
disposed, synchronously fires the one-shot listener of line 171, which rejects
the outer promise with `canceled()`.  A second call has no further effect. -/
def Canc.cancel (s : CancState) : CancState :=
  if s.cancellationRequested then s
  else
    let s := { s with cancellationRequested := true }
    if s.sourceDisposed then s
    else { s with heap := s.heap.settle s.outer (Settled.rejected canceled) }

/-- Run one pending microtask, if any. -/
def Canc.microStep (s : CancState) : CancState :=
  match s.heap.micro with
  | [] => s
  | (r, out) :: rest =>
    Canc.runReaction r out { s with heap := { s.heap with micro := rest } }

/-- External events for a createCancelablePromise instance: the body's inner
promise resolves or rejects, `cancel()` is called, or the event loop runs one
microtask. -/
inductive CEv where
  | innerResolve (v : Nat)
  | innerReject (e : MError)
  | cancelEv
  | micro
deriving DecidableEq

/-- Apply one event. -/
def Canc.step (e : CEv) (s : CancState) : CancState :=
  match e with
  | CEv.innerResolve v => { s with heap := s.heap.settle s.inner (Settled.fulfilled v) }
  | CEv.innerReject er => { s with heap := s.heap.settle s.inner (Settled.rejected er) }
  | CEv.cancelEv => Canc.cancel s
  | CEv.micro => Canc.microStep s

/-- Run a createCancelablePromise instance through a list of events. -/
def Canc.run (evs : List CEv) : CancState :=
  evs.foldl (fun s e => Canc.step e s) Canc.create

/-! The Delayer (autoFix.ts lines 336-411).  `completionPromise` is the promise
returned to every caller of `trigger` during one debounce window; it is the
`.then` derivative of an inner promise whose resolve/reject functions the
source stores as `doResolve`/`doReject` (modelled by remembering the inner
promise's identifier).  Task factories are identified by numbers; executing
factory `f` yields the value `Delayer.taskVal f`. -/

/-- Defunctionalised then-callback of the Delayer: the continuation attached to
the inner promise on lines 360-367.  On fulfilment it clears the window state,
executes the last remembered task and propagates its result to the completion
promise; on rejection (no rejection handler was installed) the rejection
passes through to the completion promise. -/
inductive DReaction where
  | thenTask (outerP : Nat)
deriving DecidableEq

/-- State of a Delayer instance.  `executions` is the ghost log of executed
factory identifiers, `nextTimer` generates `setTimeout` handles. -/
structure DelayerState where
  heap : Heap DReaction
  timeout : Option Nat
  nextTimer : Nat
  completionPromise : Option Nat
  innerPromise : Option Nat
  task : Option Nat
  executions : List Nat
deriving DecidableEq

/-- Result value produced by executing task factory `f` in the claimed
scenarios. -/
def Delayer.taskVal (f : Nat) : Nat := f + 100

/-- The freshly constructed Delayer (lines 345-350). -/
def Delayer.init : DelayerState :=
  { heap := { cells := [], micro := [] }
  , timeout := none
  , nextTimer := 0
  , completionPromise := none
  , innerPromise := none
  , task := none
  , executions := [] }

/-- Embeds `cancelTimeout` (lines 401-406): clear any pending timer. -/
def Delayer.cancelTimeout (s : DelayerState) : DelayerState :=
  { s with timeout := none }

/-- Embeds `trigger` (lines 352-376): remember `task` as the latest, clear the
pending timer, lazily create the shared completion promise for the current
window, arm a fresh timer, and return the shared completion promise. -/
def Delayer.trigger (f : Nat) (s : DelayerState) : DelayerState × Nat :=
  let s := { s with task := some f }
  let s := Delayer.cancelTimeout s
  let scp : DelayerState × Nat :=
    match s.completionPromise with
    | some cp => (s, cp)
    | none =>
      let (h, inner) := s.heap.newProm
      let (h, outer) := h.newProm
      let h := h.register inner (DReaction.thenTask outer)
      ({ s with heap := h, innerPromise := some inner, completionPromise := some outer }, outer)
  let s := scp.1
  let s := { s with timeout := some s.nextTimer, nextTimer := s.nextTimer + 1 }
  (s, scp.2)

/-- Run the window continuation of lines 360-367.  On fulfilment: null out the
window state, take the last remembered task, execute it and settle the
completion promise with its value.  On rejection: propagate the rejection. -/
def Delayer.runReaction (r : DReaction) (out : Settled) (s : DelayerState) :
    DelayerState :=
  match r with
  | DReaction.thenTask outerP =>
    match out with
    | Settled.fulfilled _ =>
      let s := { s with completionPromise := none, innerPromise := none }
      match s.task with
      | some t =>
        let s := { s with task := none, executions := s.executions ++ [t] }
        { s with heap := s.heap.settle outerP (Settled.fulfilled (Delayer.taskVal t)) }
      | none => s
    | Settled.rejected e =>
      { s with heap := s.heap.settle outerP (Settled.rejected e) }

/-- Drain the Delayer's microtask queue, running at most `fuel` microtasks. -/
def DelayerState.drain : Nat → DelayerState → DelayerState
  | 0, s => s
  | fuel + 1, s =>
    match s.heap.micro with
    | [] => s
    | (r, out) :: rest =>
      DelayerState.drain fuel
        (Delayer.runReaction r out { s with heap := { s.heap with micro := rest } })

/-- External event: timer `tid` fires.  Only the currently armed timer can
fire (cleared timers never do); firing clears the handle and calls
`doResolve(undefined)` (lines 370-373), then the event loop drains. -/
def Delayer.fireTimer (tid : Nat) (s : DelayerState) : DelayerState :=
  if s.timeout = some tid then
    let s := { s with timeout := none }
    match s.innerPromise with
    | some ip => DelayerState.drain 20 { s with heap := s.heap.settle ip (Settled.fulfilled 0) }
    | none => s
  else s

/-- Embeds `isTriggered` (lines 388-390). -/
def Delayer.isTriggered (s : DelayerState) : Bool :=
  s.timeout.isSome

/-- Embeds `cancel` (lines 392-399): clear the timer; if a window is open,
call `doReject(canceled())` and null the completion promise, then the event
loop drains. -/
def Delayer.cancel (s : DelayerState) : DelayerState :=
  let s := Delayer.cancelTimeout s
  match s.completionPromise with
  | some _ =>
    let s :=
      match s.innerPromise with
      | some ip => { s with heap := s.heap.settle ip (Settled.rejected canceled) }
      | none => s
    DelayerState.drain 20 { s with completionPromise := none }
  | none => s

/-- Embeds `dispose` (lines 408-410): it only calls `cancelTimeout`. -/
def Delayer.dispose (s : DelayerState) : DelayerState :=
  Delayer.cancelTimeout s

/-- Apply a list of timer-fire events in order. -/
def Delayer.applyFires (tids : List Nat) (s : DelayerState) : DelayerState :=
  tids.foldl (fun s tid => Delayer.fireTimer tid s) s

/-! The Limiter (autoFix.ts lines 572-630).  Tasks are identified by numbers
handed out in submission order.  Besides the source's fields
(`maxDegreeOfParalellism`, `_size`, `runningPromises`, `outstandingPromises`)
the state carries ghost logs: `runningList` (identifiers of started bodies not
yet settled), `started` (start order), `submitted` (submission order),
`finishedFires` (how often the `onFinished` emitter fired) and `resolved`
(which caller promise settled with which outcome). -/

/-- State of a Limiter instance. -/
structure LimiterState where
  maxDegreeOfParalellism : Int
  size : Nat
  runningPromises : Nat
  outstandingPromises : List Nat
  runningList : List Nat
  started : List Nat
  submitted : List Nat
  nextId : Nat
  finishedFires : Nat
  resolved : List (Nat × Settled)
deriving DecidableEq

/-- Embeds the Limiter constructor (lines 580-585): the supplied degree of
parallelism is stored unchanged, with no validation and no clamping. -/
def Limiter.init (m : Int) : LimiterState :=
  { maxDegreeOfParalellism := m
  , size := 0
  , runningPromises := 0
  , outstandingPromises := []
  , runningList := []
  , started := []
  , submitted := []
  , nextId := 0
  , finishedFires := 0
  , resolved := [] }

/-- The `while` loop of `consume` (lines 605-614), fuelled by the length of the
pending list: while a pending factory exists and fewer than
`maxDegreeOfParalellism` promises run, shift the first pending factory and
start it. -/
def Limiter.consumeLoop : Nat → LimiterState → LimiterState
  | 0, s => s
  | fuel + 1, s =>
    match s.outstandingPromises with
    | [] => s
    | t :: rest =>
      if (s.runningPromises : Int) < s.maxDegreeOfParalellism then
        Limiter.consumeLoop fuel
          { s with outstandingPromises := rest
                 , runningPromises := s.runningPromises + 1
                 , runningList := s.runningList ++ [t]
                 , started := s.started ++ [t] }
      else s

/-- Embeds `consume` (lines 605-614). -/
def Limiter.consume (s : LimiterState) : LimiterState :=
  Limiter.consumeLoop s.outstandingPromises.length s

/-- Embeds `queue` (lines 596-603): increment `_size`, push the factory with
its caller resolve/reject onto the pending list, and run `consume`.  Returns
the task identifier standing for the queued factory and its caller promise. -/
def Limiter.queue (s : LimiterState) : LimiterState × Nat :=
  let id := s.nextId
  let s := { s with size := s.size + 1
                  , nextId := id + 1
                  , submitted := s.submitted ++ [id]
                  , outstandingPromises := s.outstandingPromises ++ [id] }
  (Limiter.consume s, id)

/-- Embeds `consumed` (lines 616-625): decrement `_size` and
`runningPromises`; if factories are still pending run `consume`, otherwise
fire the `onFinished` emitter. -/
def Limiter.consumed (s : LimiterState) : LimiterState :=
  let s := { s with size := s.size - 1, runningPromises := s.runningPromises - 1 }
  if s.outstandingPromises.length > 0 then Limiter.consume s
  else { s with finishedFires := s.finishedFires + 1 }

/-- External event: the promise of started task `i` settles with outcome
`out`.  Per lines 610-612 the caller's promise is settled with the same
outcome (`promise.then(c, e)`) and `consumed` runs. -/
def Limiter.settleTask (s : LimiterState) (i : Nat) (out : Settled) : LimiterState :=
  let s := { s with resolved := s.resolved ++ [(i, out)]
                  , runningList := s.runningList.erase i }
  Limiter.consumed s

/-- One step of a Limiter instance: either some caller queues a new factory,
or the promise of some currently running task settles. -/
inductive LStep : LimiterState → LimiterState → Prop where
  | queue (s : LimiterState) : LStep s (Limiter.queue s).1
  | settle (s : LimiterState) (i : Nat) (out : Settled) (h : i ∈ s.runningList) :
      LStep s (Limiter.settleTask s i out)

/-- States reachable by a Limiter constructed with degree `m`. -/
def LReach (m : Int) (s : LimiterState) : Prop :=
  Relation.ReflTransGen LStep (Limiter.init m) s

/-! The ResourceQueue (autoFix.ts lines 646-667).  `Queue` is
`Limiter(1)` (lines 635-640).  Each created Queue instance is tracked with the
key it was created under and whether its one-shot removal listener is still
attached (the listener detaches itself by calling `queue.dispose()`). -/

/-- A Queue instance owned by a ResourceQueue: the key it was registered
under, its Limiter state, and whether the `onFinished` removal listener is
still live. -/
structure RQEntry where
  key : String
  lim : LimiterState
  listenerActive : Bool
deriving DecidableEq

/-- State of a ResourceQueue: the registry map from key to instance
identifier, the store of every instance ever created, and the fresh-identifier
counter. -/
structure RQState where
  queues : List (String × Nat)
  instances : List (Nat × RQEntry)
  nextInst : Nat
deriving DecidableEq

/-- Lookup in the registry map. -/
def RQ.lookupKey : List (String × Nat) → String → Option Nat
  | [], _ => none
  | (k, v) :: rest, key => if k = key then some v else RQ.lookupKey rest key

/-- Remove a key from the registry map (`delete this.queues[key]`). -/
def RQ.removeKey (l : List (String × Nat)) (key : String) : List (String × Nat) :=
  l.filter (fun kv => kv.1 ≠ key)

/-- Lookup in the instance store. -/
def RQ.getInst : List (Nat × RQEntry) → Nat → Option RQEntry
  | [], _ => none
  | (i, e) :: rest, id => if i = id then some e else RQ.getInst rest id

/-- Replace an instance in the store. -/
def RQ.setInst : List (Nat × RQEntry) → Nat → RQEntry → List (Nat × RQEntry)
  | [], _, _ => []
  | (i, e) :: rest, id, ent =>
    if i = id then (i, ent) :: rest else (i, e) :: RQ.setInst rest id ent

/-- The freshly constructed ResourceQueue (lines 649-651). -/
def RQ.init : RQState :=
  { queues := [], instances := [], nextInst := 0 }

/-- Embeds `queueFor` (lines 653-666): if no Queue is registered for the key,
create a fresh `Queue` (`Limiter(1)`), attach the one-shot `onFinished`
listener that disposes it and deletes the registry entry, and register it;
return the registered instance. -/
def ResourceQueue.queueFor (k : String) (s : RQState) : RQState × Nat :=
  match RQ.lookupKey s.queues k with
  | some q => (s, q)
  | none =>
    let id := s.nextInst
    let ent : RQEntry := { key := k, lim := Limiter.init 1, listenerActive := true }
    ({ queues := s.queues ++ [(k, id)]
     , instances := s.instances ++ [(id, ent)]
     , nextInst := id + 1 }, id)

/-- Queue one task factory on instance `id` (a caller doing
`queueFor(key).queue(factory)`); returns the task identifier. -/
def ResourceQueue.queueWork (id : Nat) (s : RQState) : RQState × Nat :=
  match RQ.getInst s.instances id with
  | none => (s, 0)
  | some ent =>
    let lt := Limiter.queue ent.lim
    ({ s with instances := RQ.setInst s.instances id { ent with lim := lt.1 } }, lt.2)

/-- External event: task `taskId` of instance `id` settles.  If this firing of
`onFinished` reaches a live listener, the listener runs (lines 657-660):
`queue.dispose()` (detaching the listener) and `delete this.queues[key]`. -/
def ResourceQueue.settleWork (id taskId : Nat) (out : Settled) (s : RQState) : RQState :=
  match RQ.getInst s.instances id with
  | none => s
  | some ent =>
    let lim := Limiter.settleTask ent.lim taskId out
    if ent.lim.finishedFires < lim.finishedFires ∧ ent.listenerActive = true then
      { s with queues := RQ.removeKey s.queues ent.key
             , instances := RQ.setInst s.instances id
                 { ent with lim := lim, listenerActive := false } }
    else
      { s with instances := RQ.setInst s.instances id { ent with lim := lim } }

/-! RunOnceScheduler and RunOnceWorker (autoFix.ts lines 744-835).  Work units
are numbers.  The runner callback is modelled by the ghost log `runs` (each
delivered batch, in delivery order) plus a parameter `rp`: the list of units
the runner itself pushes via `work` during its own execution. -/

/-- State of a RunOnceWorker. -/
structure WorkerState where
  units : List Nat
  timeoutToken : Option Nat
  nextTimer : Nat
  runnerAlive : Bool
  runs : List (List Nat)
deriving DecidableEq

/-- The freshly constructed worker (lines 752-757, 809-811). -/
def RunOnceWorker.init : WorkerState :=
  { units := [], timeoutToken := none, nextTimer := 0, runnerAlive := true, runs := [] }

/-- Embeds `RunOnceScheduler.cancel` (lines 770-775). -/
def RunOnceScheduler.cancel (s : WorkerState) : WorkerState :=
  { s with timeoutToken := none }

/-- Embeds `RunOnceScheduler.schedule` (lines 780-783): cancel then arm a
fresh timer. -/
def RunOnceScheduler.schedule (s : WorkerState) : WorkerState :=
  let s := RunOnceScheduler.cancel s
  { s with timeoutToken := some s.nextTimer, nextTimer := s.nextTimer + 1 }

/-- Embeds `RunOnceScheduler.isScheduled` (lines 788-790). -/
def RunOnceScheduler.isScheduled (s : WorkerState) : Bool :=
  s.timeoutToken.isSome

/-- Embeds `RunOnceWorker.work` (lines 813-819): push the unit, then schedule
if not already scheduled. -/
def RunOnceWorker.work (u : Nat) (s : WorkerState) : WorkerState :=
  let s := { s with units := s.units ++ [u] }
  if RunOnceScheduler.isScheduled s then s else RunOnceScheduler.schedule s

/-- Embeds `RunOnceWorker.doRun` (lines 821-828): swap the buffer to empty,
then invoke the runner with the captured batch; the runner records the batch
and performs its own `work` calls (`rp`). -/
def RunOnceWorker.doRun (rp : List Nat) (s : WorkerState) : WorkerState :=
  let units := s.units
  let s := { s with units := [] }
  if s.runnerAlive then
    let s := { s with runs := s.runs ++ [units] }
    rp.foldl (fun s u => RunOnceWorker.work u s) s
  else s

/-- Embeds `RunOnceScheduler.onTimeout` (lines 792-797): disarm, then run if a
runner is (still) installed. -/
def RunOnceScheduler.onTimeout (rp : List Nat) (s : WorkerState) : WorkerState :=
  let s := { s with timeoutToken := none }
  if s.runnerAlive then RunOnceWorker.doRun rp s else s

/-- External event: timer `tid` fires; only the currently armed timer can. -/
def RunOnceWorker.fire (rp : List Nat) (tid : Nat) (s : WorkerState) : WorkerState :=
  if s.timeoutToken = some tid then RunOnceScheduler.onTimeout rp s else s

/-! Concrete scenarios referenced by the verification theorems below. -/

/-- Five `Throttler.queue` calls in immediate succession with the shared
counter-incrementing factory: the resulting state and the five returned
promises, in call order. -/
def c1Calls : ThrottlerState × List Nat :=
  let s1r := Throttler.queue Throttler.init
  let s2r := Throttler.queue s1r.1
  let s3r := Throttler.queue s2r.1
  let s4r := Throttler.queue s3r.1
  let s5r := Throttler.queue s4r.1
  (s5r.1, [s1r.2, s2r.2, s3r.2, s4r.2, s5r.2])

/-- The scenario after both factory invocations have completed. -/
def c1Final : ThrottlerState :=
  Throttler.completeTask 1 (Throttler.completeTask 0 c1Calls.1)

/-- The literal reading of the Throttler-collapse claim: exactly two factory
invocations occur, and every one of the five returned promises resolves to
the counter value produced by the second invocation. -/
def throttlerCollapseClaim : Prop :=
  c1Final.taskProms.length = 2 ∧
  ∀ p ∈ c1Calls.2,
    c1Final.heap.state p = some (Settled.fulfilled (c1Final.taskVals.getD 1 0))

/-- Delayer scenario: three triggers with distinct factories inside one
debounce window. -/
def c4T1 : DelayerState × Nat := Delayer.trigger 1 Delayer.init

/-- Second trigger of the Delayer scenario. -/
def c4T2 : DelayerState × Nat := Delayer.trigger 2 c4T1.1

/-- Third trigger of the Delayer scenario. -/
def c4T3 : DelayerState × Nat := Delayer.trigger 3 c4T2.1

/-- The Delayer scenario after the (third) armed timer fires. -/
def c4Final : DelayerState := Delayer.fireTimer 2 c4T3.1

/-- The Delayer scenario where `cancel()` is called instead of letting the
timer fire. -/
def c5Canceled : DelayerState := Delayer.cancel c4T3.1

/-- A trigger issued after the cancellation. -/
def c5Next : DelayerState × Nat := Delayer.trigger 4 c5Canceled

/-- The Delayer scenario where `dispose()` is called instead. -/
def c10Disposed : DelayerState := Delayer.dispose c4T3.1

/-- Invariant of the Limiter transition system: the stored degree is the
constructor argument, the `runningPromises` counter counts the running
bodies, the count never exceeds the degree (when the degree is
non-negative), started tasks followed by pending tasks list exactly the
submitted tasks in submission order, a negative degree never starts
anything, and every running or resolved task was started. -/
def LInv (m : Int) (s : LimiterState) : Prop :=
  s.maxDegreeOfParalellism = m ∧
  s.runningPromises = s.runningList.length ∧
  (s.runningList.length : Int) ≤ max m 0 ∧
  s.started ++ s.outstandingPromises = s.submitted ∧
  (m < 0 → s.started = []) ∧
  (∀ i ∈ s.runningList, i ∈ s.started) ∧
  (∀ p ∈ s.resolved, p.1 ∈ s.started)

/-- Limiter scenario for the finished-notification claim: a Limiter of degree
2 with one task queued (and immediately started). -/
def c6S1 : LimiterState := (Limiter.queue (Limiter.init 2)).1

/-- Second task queued (and immediately started): both bodies now run. -/
def c6S2 : LimiterState := (Limiter.queue c6S1).1

/-- The first task's promise settles while the second body is still
running. -/
def c6Final : LimiterState := Limiter.settleTask c6S2 0 (Settled.fulfilled 0)

/-- The literal reading of the fail-fast claim at degree `m`: construction
does not store a structurally invalid degree unchanged. -/
def limiterCtorRejects (m : Int) : Prop :=
  (Limiter.init m).maxDegreeOfParalellism ≠ m

/-- ResourceQueue scenario: first lookup for key `k` creates the queue. -/
def c8A : RQState × Nat := ResourceQueue.queueFor "k" RQ.init

/-- A task is queued on that queue (it starts immediately). -/
def c8B : RQState × Nat := ResourceQueue.queueWork c8A.2 c8A.1

/-- Second lookup while the task is still running. -/
def c8C : RQState × Nat := ResourceQueue.queueFor "k" c8B.1

/-- The task settles: the queue drains, fires `onFinished`, and the listener
removes the registry entry. -/
def c8D : RQState := ResourceQueue.settleWork c8A.2 c8B.2 (Settled.fulfilled 0) c8C.1

/-- Lookup after the drain. -/
def c8E : RQState × Nat := ResourceQueue.queueFor "k" c8D

/-- RunOnceWorker scenario: three `work` calls before the scheduled delay
elapses. -/
def c9S : WorkerState :=
  RunOnceWorker.work 3 (RunOnceWorker.work 2 (RunOnceWorker.work 1 RunOnceWorker.init))

/-- The armed timer fires; during its run the runner itself pushes unit 7. -/
def c9F1 : WorkerState := RunOnceWorker.fire [7] 0 c9S

/-- The re-armed timer fires a second time. -/
def c9F2 : WorkerState := RunOnceWorker.fire [7] 1 c9F1

/-- Invariant of a createCancelablePromise instance: the inner and outer
promise identifiers are fixed by construction, the heap holds exactly those
two cells, and once the token is canceled or the source disposed the outer
promise is settled. -/
def CInv (s : CancState) : Prop :=
  s.inner = 0 ∧ s.outer = 1 ∧ s.heap.cells.length = 2 ∧
  (s.cancellationRequested = true → s.heap.state s.outer ≠ none) ∧
  (s.sourceDisposed = true → s.heap.state s.outer ≠ none)

/-! Verification theorems. -/

/-- C1 (counterexample): the Throttler-collapse claim is false as stated.
Five `queue` calls in immediate succession do cause exactly two factory
invocations, but the first call's promise resolves to the counter value of
the FIRST invocation, not of the second: the first branch of `queue`
(autoFix.ts lines 289-299) resolves the first caller with the active task's
own result. -/
theorem throttler_collapse_counterexample : ¬ throttlerCollapseClaim := by
  unfold throttlerCollapseClaim
  decide

/-- C1 (amended): issuing five `queue(factory)` calls in immediate succession
causes exactly two invocations of the factory (one immediate, one collapsed
follow-up); the first returned promise resolves to the counter value produced
by the first invocation, and the remaining four promises resolve to the
counter value produced by the second invocation. -/
theorem throttler_collapse_amended :
    c1Final.taskProms.length = 2 ∧
    c1Final.taskVals = [1, 2] ∧
    c1Calls.2.map c1Final.heap.state =
      [some (Settled.fulfilled 1), some (Settled.fulfilled 2), some (Settled.fulfilled 2),
       some (Settled.fulfilled 2), some (Settled.fulfilled 2)] := by
  decide

/-- C4: triggering a Delayer three times with distinct factories before the
delay elapses yields exactly one execution, of the last factory supplied, and
all three callers received the very same completion promise, which resolves
to that single execution's result. -/
theorem delayer_last_wins :
    c4T1.2 = c4T2.2 ∧ c4T2.2 = c4T3.2 ∧
    c4Final.executions = [3] ∧
    c4Final.heap.state c4T3.2 = some (Settled.fulfilled (Delayer.taskVal 3)) := by
  decide

/-- C5: with a timer pending after three triggers, `cancel()` rejects the
outstanding shared trigger promise with the cancellation failure (recognised
by `isPromiseCanceledError`), makes `isTriggered()` false, and a subsequent
`trigger` opens a fresh debounce window: it returns a new, still pending
promise distinct from the canceled one, with a timer armed again. -/
theorem delayer_cancel_rejects :
    Delayer.isTriggered c4T3.1 = true ∧
    c5Canceled.heap.state c4T3.2 = some (Settled.rejected canceled) ∧
    isPromiseCanceledError canceled = true ∧
    Delayer.isTriggered c5Canceled = false ∧
    c5Next.2 ≠ c4T3.2 ∧
    c5Next.1.completionPromise = some c5Next.2 ∧
    c5Next.1.heap.state c5Next.2 = none ∧
    Delayer.isTriggered c5Next.1 = true := by
  decide

/-- C8: a second `queueFor("k")` issued while the queue still has running
work returns the identical instance and leaves the whole state untouched;
after the task settles the queue drains, fires `onFinished` once, and its
registry entry is removed, so the next `queueFor("k")` returns a new,
distinct, empty Queue instance. -/
theorem resourceQueue_identity_renewal :
    (RQ.getInst c8B.1.instances c8A.2).map (fun e => e.lim.size) = some 1 ∧
    c8C.2 = c8A.2 ∧ c8C.1 = c8B.1 ∧
    (RQ.getInst c8D.instances c8A.2).map (fun e => e.lim.finishedFires) = some 1 ∧
    RQ.lookupKey c8D.queues "k" = none ∧
    c8E.2 ≠ c8A.2 ∧
    RQ.getInst c8E.1.instances c8E.2 =
      some { key := "k", lim := Limiter.init 1, listenerActive := true } := by
  decide

/-- C9: calling `work(1)`, `work(2)`, `work(3)` before the scheduled delay
elapses arms the timer exactly once and buffers the units in push order; the
firing delivers exactly one runner invocation with the batch `[1, 2, 3]`, and
because the buffer is swapped to empty before the runner runs, the unit the
runner itself pushes starts a fresh batch (delivered alone at the next
firing) instead of being lost or re-delivered. -/
theorem runOnceWorker_batching :
    c9S.units = [1, 2, 3] ∧ c9S.timeoutToken = some 0 ∧
    c9F1.runs = [[1, 2, 3]] ∧
    c9F1.units = [7] ∧
    RunOnceScheduler.isScheduled c9F1 = true ∧
    c9F2.runs = [[1, 2, 3], [7]] := by
  decide

theorem LInv_init (m : Int) : LInv m (Limiter.init m) := by
  refine ⟨rfl, rfl, ?_, rfl, fun _ => rfl, ?_, ?_⟩ <;> simp [Limiter.init]

theorem consumeLoop_LInv (m : Int) (fuel : Nat) :
    ∀ s : LimiterState, LInv m s → LInv m (Limiter.consumeLoop fuel s) := by
  induction fuel with
  | zero => intro s h; exact h
  | succ fuel ih =>
    intro s h
    obtain ⟨h1, h2, h3, h4, h5, h6, h7⟩ := h
    simp only [Limiter.consumeLoop]
    split
    · exact ⟨h1, h2, h3, h4, h5, h6, h7⟩
    · rename_i t rest ho
      split
      · rename_i hg
        apply ih
        rw [h1] at hg
        have hmaxl : m ≤ max m 0 := le_max_left m 0
        refine ⟨h1, ?_, ?_, ?_, ?_, ?_, ?_⟩
        · simp [h2]
        · simp only [List.length_append, List.length_cons, List.length_nil]
          push_cast
          push_cast [h2] at hg
          omega
        · simp only [List.append_assoc, List.singleton_append]
          rw [← ho]
          exact h4
        · intro hm
          exfalso
          push_cast [h2] at hg
          omega
        · intro i hi
          rcases List.mem_append.mp hi with hi | hi
          · exact List.mem_append.mpr (Or.inl (h6 i hi))
          · exact List.mem_append.mpr (Or.inr hi)
        · intro p hp
          exact List.mem_append.mpr (Or.inl (h7 p hp))
      · exact ⟨h1, h2, h3, h4, h5, h6, h7⟩

theorem consume_LInv (m : Int) (s : LimiterState) (h : LInv m s) :
    LInv m (Limiter.consume s) :=
  consumeLoop_LInv m _ s h

theorem queue_fst (s : LimiterState) :
    (Limiter.queue s).1 = Limiter.consume
      { s with size := s.size + 1
             , nextId := s.nextId + 1
             , submitted := s.submitted ++ [s.nextId]
             , outstandingPromises := s.outstandingPromises ++ [s.nextId] } := rfl

theorem queue_LInv (m : Int) (s : LimiterState) (h : LInv m s) :
    LInv m (Limiter.queue s).1 := by
  obtain ⟨h1, h2, h3, h4, h5, h6, h7⟩ := h
  rw [queue_fst]
  apply consume_LInv
  refine ⟨h1, h2, h3, ?_, h5, h6, h7⟩
  rw [← List.append_assoc, h4]

theorem settleTask_LInv (m : Int) (s : LimiterState) (i : Nat) (out : Settled)
    (hi : i ∈ s.runningList) (h : LInv m s) :
    LInv m (Limiter.settleTask s i out) := by
  obtain ⟨h1, h2, h3, h4, h5, h6, h7⟩ := h
  have hlen : (s.runningList.erase i).length = s.runningList.length - 1 :=
    List.length_erase_of_mem hi
  have hmid : LInv m
      { s with resolved := s.resolved ++ [(i, out)]
             , runningList := s.runningList.erase i
             , size := s.size - 1
             , runningPromises := s.runningPromises - 1 } := by
    refine ⟨h1, ?_, ?_, h4, h5, ?_, ?_⟩
    · simp only
      omega
    · simp only [hlen]
      omega
    · intro a ha
      exact h6 a (List.mem_of_mem_erase ha)
    · intro p hp
      rcases List.mem_append.mp hp with hp | hp
      · exact h7 p hp
      · have : p = (i, out) := List.mem_singleton.mp hp
        rw [this]
        exact h6 i hi
  unfold Limiter.settleTask Limiter.consumed
  dsimp only
  split
  · exact consume_LInv m _ hmid
  · obtain ⟨g1, g2, g3, g4, g5, g6, g7⟩ := hmid
    exact ⟨g1, g2, g3, g4, g5, g6, g7⟩

theorem LReach_LInv (m : Int) (s : LimiterState) (h : LReach m s) : LInv m s := by
  induction h with
  | refl => exact LInv_init m
  | tail _ hstep ih =>
    cases hstep with
    | queue => exact queue_LInv m _ ih
    | settle i out hi => exact settleTask_LInv m _ i out hi ih

/-- C2: in every state reachable by a Limiter constructed with concurrency
bound `N` under any sequence of `queue` calls and task settlements, the
number of concurrently running task bodies (both the `runningPromises`
counter and the set of started-but-unsettled tasks) is at most `N`, and the
tasks started so far followed by the still-pending tasks are exactly the
submitted tasks in submission order — so tasks start in arrival order as
capacity frees up, never in completion order. -/
theorem limiter_bound_and_order (N : Nat) (s : LimiterState)
    (h : LReach (N : Int) s) :
    s.runningPromises ≤ N ∧ s.runningList.length ≤ N ∧
    s.started ++ s.outstandingPromises = s.submitted := by
  obtain ⟨h1, h2, h3, h4, h5, h6, h7⟩ := LReach_LInv _ _ h
  have hmax : max (N : Int) 0 = (N : Int) := max_eq_left (Int.ofNat_nonneg N)
  rw [hmax] at h3
  refine ⟨?_, ?_, h4⟩ <;> omega

/-- Witness for C2 at a concrete input: the Limiter of bound 1 after one
`queue` call is reachable, and the bound and ordering hold there. -/
theorem limiter_bound_and_order_witness :
    LReach ((1 : Nat) : Int) (Limiter.queue (Limiter.init 1)).1 ∧
    ((Limiter.queue (Limiter.init 1)).1.runningPromises ≤ 1 ∧
     (Limiter.queue (Limiter.init 1)).1.runningList.length ≤ 1 ∧
     (Limiter.queue (Limiter.init 1)).1.started ++
       (Limiter.queue (Limiter.init 1)).1.outstandingPromises =
       (Limiter.queue (Limiter.init 1)).1.submitted) :=
  ⟨Relation.ReflTransGen.single (LStep.queue _),
   limiter_bound_and_order 1 _ (Relation.ReflTransGen.single (LStep.queue _))⟩

theorem consumeLoop_finishedFires (fuel : Nat) :
    ∀ s : LimiterState, (Limiter.consumeLoop fuel s).finishedFires = s.finishedFires := by
  induction fuel with
  | zero => intro s; rfl
  | succ fuel ih =>
    intro s
    simp only [Limiter.consumeLoop]
    split
    · rfl
    · split
      · rw [ih]
      · rfl

/-- C6 (counterexample): the finished notification is NOT emitted only when
no task is running.  In a reachable state of a Limiter with concurrency 2 —
two tasks queued and started, then the first one settled — `onFinished` has
fired once while the second queued task body is still running. -/
theorem limiter_finished_counterexample :
    LReach (2 : Int) c6Final ∧
    c6S2.finishedFires = 0 ∧ c6S2.runningList = [0, 1] ∧
    c6Final.finishedFires = 1 ∧ c6Final.runningList = [1] := by
  refine ⟨?_, by decide, by decide, by decide, by decide⟩
  have r1 : LStep (Limiter.init 2) c6S1 := LStep.queue _
  have r2 : LStep c6S1 c6S2 := LStep.queue _
  have r3 : LStep c6S2 c6Final := LStep.settle _ 0 (Settled.fulfilled 0) (by decide)
  exact Relation.ReflTransGen.tail
    (Relation.ReflTransGen.tail (Relation.ReflTransGen.single r1) r2) r3

/-- C6 (amended): the Limiter fires its finished notification exactly when a
task settles while the pending list is already empty — regardless of how many
other task bodies are still running — and a `queue` call never fires it.  For
a Queue (`Limiter(1)`) this coincides with the drained state, but for
`maxConcurrency` greater than 1 it can fire while a body is still running. -/
theorem limiter_finished_characterisation (s : LimiterState) (i : Nat) (out : Settled) :
    (Limiter.settleTask s i out).finishedFires =
      s.finishedFires + (if s.outstandingPromises = [] then 1 else 0) ∧
    (Limiter.queue s).1.finishedFires = s.finishedFires := by
  constructor
  · unfold Limiter.settleTask Limiter.consumed
    by_cases hout : s.outstandingPromises = []
    · simp [hout]
    · have hlen : 0 < s.outstandingPromises.length := List.length_pos.mpr hout
      simp only [hout, if_neg, hlen, if_pos, Limiter.consume, consumeLoop_finishedFires]
      simp [hout]
  · rw [queue_fst]
    unfold Limiter.consume
    rw [consumeLoop_finishedFires]

/-- C7 (counterexample): constructing a Limiter with the structurally invalid
concurrency limit -1 does not fail fast and does not clamp: the constructor
stores -1 unchanged. -/
theorem limiter_ctor_counterexample : ¬ limiterCtorRejects (-1) := by
  unfold limiterCtorRejects
  decide

/-- C7 (amended): constructing a Limiter with a negative concurrency limit is
silently accepted: the value is stored unchanged (neither rejected nor
clamped), and in every reachable state of such a Limiter no queued task is
ever started — queued work just accumulates. -/
theorem limiter_ctor_accepts_negative (m : Int) (hm : m < 0) (s : LimiterState)
    (h : LReach m s) :
    s.maxDegreeOfParalellism = m ∧ s.started = [] ∧ s.runningList = [] ∧
    s.runningPromises = 0 := by
  obtain ⟨h1, h2, h3, h4, h5, h6, h7⟩ := LReach_LInv m s h
  have hst := h5 hm
  have hrl : s.runningList = [] := by
    rw [List.eq_nil_iff_forall_not_mem]
    intro a ha
    have hmem := h6 a ha
    rw [hst] at hmem
    simp at hmem
  refine ⟨h1, hst, hrl, ?_⟩
  rw [h2, hrl]
  rfl

/-- Witness for C7's amended statement at the concrete input -1, in the
reachable state where one factory has been queued. -/
theorem limiter_ctor_accepts_negative_witness :
    ((-1 : Int) < 0 ∧ LReach (-1) (Limiter.queue (Limiter.init (-1))).1) ∧
    ((Limiter.queue (Limiter.init (-1))).1.maxDegreeOfParalellism = -1 ∧
     (Limiter.queue (Limiter.init (-1))).1.started = [] ∧
     (Limiter.queue (Limiter.init (-1))).1.runningList = [] ∧
     (Limiter.queue (Limiter.init (-1))).1.runningPromises = 0) :=
  ⟨⟨by decide, Relation.ReflTransGen.single (LStep.queue _)⟩,
   limiter_ctor_accepts_negative (-1) (by decide) _
     (Relation.ReflTransGen.single (LStep.queue _))⟩

theorem Heap.cell_setCell_ne {R : Type} (h : Heap R) {p q : Nat} (hne : p ≠ q)
    (c : Option Settled × List R) : (h.setCell p c).cell q = h.cell q := by
  unfold Heap.setCell Heap.cell
  simp only [List.getD_eq_getElem?_getD, List.getElem?_set_ne hne]

theorem Heap.state_settle_ne {R : Type} (h : Heap R) {p q : Nat} (hne : q ≠ p)
    (out : Settled) : (h.settle q out).state p = h.state p := by
  unfold Heap.settle
  split
  · rfl
  · unfold Heap.state
    rw [show ∀ hh : Heap R, ∀ m, ({ hh with micro := m } : Heap R).cell p = hh.cell p
          from fun _ _ => rfl]
    rw [Heap.cell_setCell_ne h hne]

theorem Heap.settle_of_settled {R : Type} (h : Heap R) {p : Nat} {o : Settled}
    (hp : h.state p = some o) (out : Settled) : h.settle p out = h := by
  unfold Heap.settle
  split
  · rfl
  · rename_i rs heq
    unfold Heap.state at hp
    rw [heq] at hp
    exact absurd hp (by simp)

theorem Heap.state_settle_self {R : Type} (h : Heap R) {p : Nat}
    (hp : h.state p = none) (hlt : p < h.cells.length) (out : Settled) :
    (h.settle p out).state p = some out := by
  unfold Heap.settle
  split
  · rename_i o rs heq
    unfold Heap.state at hp
    rw [heq] at hp
    exact absurd hp (by simp)
  · unfold Heap.state Heap.setCell Heap.cell
    simp [List.getD_eq_getElem?_getD, List.getElem?_set_self hlt]

theorem Heap.length_settle {R : Type} (h : Heap R) (p : Nat) (out : Settled) :
    (h.settle p out).cells.length = h.cells.length := by
  unfold Heap.settle
  split
  · rfl
  · unfold Heap.setCell
    simp [List.length_set]

theorem CInv_create : CInv Canc.create := by
  unfold CInv
  decide

theorem Canc_step_CInv (e : CEv) (s : CancState) (h : CInv s) : CInv (Canc.step e s) := by
  obtain ⟨h1, h2, h3, h4, h5⟩ := h
  have hio : s.inner ≠ s.outer := by rw [h1, h2]; decide
  have houter : ∀ (hp : Heap CReaction) (out : Settled),
      hp.state s.outer = s.heap.state s.outer → hp.cells.length = s.heap.cells.length →
      (hp.settle s.outer out).state s.outer ≠ none := by
    intro hp out hst hlen
    cases hso : s.heap.state s.outer with
    | some o =>
      rw [Heap.settle_of_settled hp (hst.trans hso), hst, hso]
      simp
    | none =>
      rw [Heap.state_settle_self hp (hst.trans hso) (by rw [hlen, h3, h2]; omega) out]
      simp
  cases e with
  | innerResolve v =>
    refine ⟨h1, h2, ?_, ?_, ?_⟩
    · simp only [Canc.step, Heap.length_settle]
      exact h3
    · intro hr
      simp only [Canc.step, Heap.state_settle_ne s.heap hio]
      exact h4 hr
    · intro hd
      simp only [Canc.step, Heap.state_settle_ne s.heap hio]
      exact h5 hd
  | innerReject er =>
    refine ⟨h1, h2, ?_, ?_, ?_⟩
    · simp only [Canc.step, Heap.length_settle]
      exact h3
    · intro hr
      simp only [Canc.step, Heap.state_settle_ne s.heap hio]
      exact h4 hr
    · intro hd
      simp only [Canc.step, Heap.state_settle_ne s.heap hio]
      exact h5 hd
  | cancelEv =>
    simp only [Canc.step]
    unfold Canc.cancel
    by_cases hreq : s.cancellationRequested = true
    · rw [if_pos hreq]
      exact ⟨h1, h2, h3, h4, h5⟩
    · rw [if_neg hreq]
      dsimp only
      by_cases hdis : s.sourceDisposed = true
      · rw [if_pos hdis]
        exact ⟨h1, h2, h3, fun _ => h5 hdis, fun _ => h5 hdis⟩
      · rw [if_neg hdis]
        refine ⟨h1, h2, ?_, ?_, ?_⟩
        · dsimp only
          rw [Heap.length_settle]
          exact h3
        · intro _
          exact houter s.heap (Settled.rejected canceled) rfl rfl
        · intro hd
          exact absurd hd hdis
  | micro =>
    simp only [Canc.step]
    unfold Canc.microStep
    cases hm : s.heap.micro with
    | nil => exact ⟨h1, h2, h3, h4, h5⟩
    | cons ro rest =>
      obtain ⟨r, out⟩ := ro
      cases r
      unfold Canc.runReaction
      dsimp only
      refine ⟨h1, h2, ?_, ?_, ?_⟩
      · rw [Heap.length_settle]
        exact h3
      · intro _
        exact houter { s.heap with micro := rest } out rfl rfl
      · intro _
        exact houter { s.heap with micro := rest } out rfl rfl

theorem Canc_step_preserves_settled (e : CEv) (s : CancState) (o : Settled)
    (hinv : CInv s) (ho : s.heap.state s.outer = some o) :
    (Canc.step e s).outer = s.outer ∧ (Canc.step e s).heap.state s.outer = some o := by
  obtain ⟨h1, h2, h3, h4, h5⟩ := hinv
  have hio : s.inner ≠ s.outer := by rw [h1, h2]; decide
  cases e with
  | innerResolve v =>
    exact ⟨rfl, by simp only [Canc.step, Heap.state_settle_ne s.heap hio]; exact ho⟩
  | innerReject er =>
    exact ⟨rfl, by simp only [Canc.step, Heap.state_settle_ne s.heap hio]; exact ho⟩
  | cancelEv =>
    simp only [Canc.step]
    unfold Canc.cancel
    by_cases hreq : s.cancellationRequested = true
    · rw [if_pos hreq]
      exact ⟨rfl, ho⟩
    · rw [if_neg hreq]
      dsimp only
      by_cases hdis : s.sourceDisposed = true
      · rw [if_pos hdis]
        exact ⟨rfl, ho⟩
      · rw [if_neg hdis]
        refine ⟨rfl, ?_⟩
        dsimp only
        rw [Heap.settle_of_settled s.heap ho]
        exact ho
  | micro =>
    simp only [Canc.step]
    unfold Canc.microStep
    cases hm : s.heap.micro with
    | nil => exact ⟨rfl, ho⟩
    | cons ro rest =>
      obtain ⟨r, out⟩ := ro
      cases r
      unfold Canc.runReaction
      dsimp only
      refine ⟨rfl, ?_⟩
      rw [Heap.settle_of_settled { s.heap with micro := rest }
        (show ({ s.heap with micro := rest } : Heap CReaction).state s.outer = some o from ho)]
      exact ho

theorem Canc_cancel_rejects (s : CancState) (hinv : CInv s)
    (hp : s.heap.state s.outer = none) :
    (Canc.step CEv.cancelEv s).outer = s.outer ∧
    (Canc.step CEv.cancelEv s).heap.state s.outer = some (Settled.rejected canceled) := by
  obtain ⟨h1, h2, h3, h4, h5⟩ := hinv
  have hreq : ¬ (s.cancellationRequested = true) := fun hr => (h4 hr) hp
  have hdis : ¬ (s.sourceDisposed = true) := fun hd => (h5 hd) hp
  simp only [Canc.step]
  unfold Canc.cancel
  rw [if_neg hreq]
  dsimp only
  rw [if_neg hdis]
  refine ⟨rfl, ?_⟩
  dsimp only
  exact Heap.state_settle_self s.heap hp (by rw [h2, h3]; omega) _

theorem Canc_foldl_CInv (evs : List CEv) :
    ∀ s : CancState, CInv s → CInv (evs.foldl (fun s e => Canc.step e s) s) := by
  induction evs with
  | nil => intro s h; exact h
  | cons e rest ih => intro s h; exact ih _ (Canc_step_CInv e s h)

theorem Canc_run_CInv (evs : List CEv) : CInv (Canc.run evs) :=
  Canc_foldl_CInv evs Canc.create CInv_create

theorem Canc_foldl_settled (evs : List CEv) :
    ∀ (s : CancState) (o : Settled), CInv s → s.heap.state s.outer = some o →
    (evs.foldl (fun s e => Canc.step e s) s).outer = s.outer ∧
    (evs.foldl (fun s e => Canc.step e s) s).heap.state s.outer = some o := by
  induction evs with
  | nil => intro s o _ ho; exact ⟨rfl, ho⟩
  | cons e rest ih =>
    intro s o hinv ho
    have hstep := Canc_step_preserves_settled e s o hinv ho
    have hinv2 := Canc_step_CInv e s hinv
    have hrec := ih (Canc.step e s) o hinv2 (by rw [hstep.1]; exact hstep.2)
    refine ⟨hrec.1.trans hstep.1, ?_⟩
    have hst := hrec.2
    rw [hstep.1] at hst
    exact hst

/-- C3: for every event history `pre` of a cancelable promise (the body's
inner promise may already have resolved or rejected, microtasks may or may not
have run — covering both synchronous-then-resolved and truly asynchronous
bodies), if the outer promise has not yet settled, then calling `cancel()`
rejects the outer promise with the `Canceled` error — recognised by
`isPromiseCanceledError` — and it stays so for every continuation `post` of
the history, even if the body's success is delivered later. -/
theorem cancelable_cancel_wins (pre post : List CEv)
    (hpending : (Canc.run pre).heap.state (Canc.run pre).outer = none) :
    (Canc.run (pre ++ CEv.cancelEv :: post)).heap.state
      (Canc.run (pre ++ CEv.cancelEv :: post)).outer =
        some (Settled.rejected canceled) ∧
    isPromiseCanceledError canceled = true := by
  have hinv : CInv (Canc.run pre) := Canc_run_CInv pre
  have hrun : Canc.run (pre ++ CEv.cancelEv :: post) =
      post.foldl (fun s e => Canc.step e s) (Canc.step CEv.cancelEv (Canc.run pre)) := by
    unfold Canc.run
    rw [List.foldl_append, List.foldl_cons]
  have hcan := Canc_cancel_rejects (Canc.run pre) hinv hpending
  have hinv2 := Canc_step_CInv CEv.cancelEv (Canc.run pre) hinv
  have hfold := Canc_foldl_settled post (Canc.step CEv.cancelEv (Canc.run pre))
      (Settled.rejected canceled) hinv2 (by rw [hcan.1]; exact hcan.2)
  constructor
  · rw [hrun, hfold.1, hcan.1]
    have hst := hfold.2
    rw [hcan.1] at hst
    exact hst
  · decide

/-- Witness for C3 at a concrete input: the body resolves synchronously (the
inner promise is already fulfilled with 7 and the delivery microtask is
queued), the caller cancels before the delivery runs, and the delivery runs
afterwards — the outer promise is rejected with the `Canceled` error
anyway. -/
theorem cancelable_cancel_wins_witness :
    ((Canc.run [CEv.innerResolve 7]).heap.state
       (Canc.run [CEv.innerResolve 7]).outer = none) ∧
    ((Canc.run ([CEv.innerResolve 7] ++ CEv.cancelEv :: [CEv.micro])).heap.state
       (Canc.run ([CEv.innerResolve 7] ++ CEv.cancelEv :: [CEv.micro])).outer =
         some (Settled.rejected canceled) ∧
     isPromiseCanceledError canceled = true) :=
  ⟨by decide, cancelable_cancel_wins [CEv.innerResolve 7] [CEv.micro] (by decide)⟩

/-- C10: `Delayer.dispose` only clears the pending timer — the resulting
state keeps the shared completion promise, the remembered task and the whole
promise heap unchanged (shown both as a general frame equality and on the
three-trigger scenario).  Consequently, after `dispose()` the outstanding
trigger promise is still pending and, with the timer gone and no microtask
queued, no sequence of timer firings and no amount of event-loop draining can
ever settle it — unlike `cancel()`, which rejects it. -/
theorem delayer_dispose_frame :
    (∀ s : DelayerState, Delayer.dispose s = { s with timeout := none }) ∧
    c10Disposed.completionPromise = c4T3.1.completionPromise ∧
    c10Disposed.task = c4T3.1.task ∧
    c10Disposed.heap = c4T3.1.heap ∧
    c10Disposed.timeout = none ∧
    c10Disposed.heap.state c4T3.2 = none ∧
    c10Disposed.heap.micro = [] ∧
    (∀ tids : List Nat, Delayer.applyFires tids c10Disposed = c10Disposed) ∧
    (∀ fuel : Nat, DelayerState.drain fuel c10Disposed = c10Disposed) := by
  have hto : c10Disposed.timeout = none := by decide
  have hfire : ∀ tid : Nat, Delayer.fireTimer tid c10Disposed = c10Disposed := by
    intro tid
    unfold Delayer.fireTimer
    rw [hto]
    simp
  have hdrain : ∀ fuel : Nat, DelayerState.drain fuel c10Disposed = c10Disposed := by
    intro fuel
    cases fuel with
    | zero => rfl
    | succ n => rfl
  refine ⟨fun s => rfl, by decide, by decide, by decide, hto, by decide, by decide,
    ?_, hdrain⟩
  intro tids
  induction tids with
  | nil => rfl
  | cons t ts ih =>
    unfold Delayer.applyFires at ih ⊢
    rw [List.foldl_cons, hfire t]
    exact ih

end Spec2Proof
